import Mathlib

/-!
Verification development for the NBodyGravity repository (WebGPU n-body
simulation).  The definitions below are shallow embeddings, over the real
numbers, of:

* the WGSL force kernel `computeForces` and integration kernel
  `integrateParticles` (shaders/force-compute.wgsl);
* the CPU fallback physics `SimpleNBodySimulation.updatePhysics`;
* the particle initializers `NBodySimulation.initializeParticles` (GPU)
  and `SimpleNBodySimulation.initializeParticles` (CPU);
* the orbit camera (`CameraController`): Rodrigues-rotation composition,
  wheel zoom and smoothed distance update;
* the `setParticleCount` resize entry points.

Floating point is modelled by exact real arithmetic.  Operations that are
undefined or non-finite in the source (division by a zero squared distance,
`normalize` of the zero vector) are modelled as `Option`-valued partiality.
-/

namespace NBody

noncomputable section

/-- A 3-component vector (`vec3<f32>` in WGSL, a 3-element array in JS). -/
structure Vec3 where
  x : ℝ
  y : ℝ
  z : ℝ

@[ext] theorem Vec3.ext_fields {a b : Vec3} (hx : a.x = b.x) (hy : a.y = b.y)
    (hz : a.z = b.z) : a = b := by
  cases a; cases b; simp_all

instance : Add Vec3 := ⟨fun a b => ⟨a.x + b.x, a.y + b.y, a.z + b.z⟩⟩

instance : Sub Vec3 := ⟨fun a b => ⟨a.x - b.x, a.y - b.y, a.z - b.z⟩⟩

instance : Neg Vec3 := ⟨fun a => ⟨-a.x, -a.y, -a.z⟩⟩

instance : SMul ℝ Vec3 := ⟨fun r a => ⟨r * a.x, r * a.y, r * a.z⟩⟩

instance : Zero Vec3 := ⟨⟨0, 0, 0⟩⟩

theorem Vec3.add_def (a b : Vec3) : a + b = ⟨a.x + b.x, a.y + b.y, a.z + b.z⟩ := rfl

theorem Vec3.sub_def (a b : Vec3) : a - b = ⟨a.x - b.x, a.y - b.y, a.z - b.z⟩ := rfl

theorem Vec3.neg_def (a : Vec3) : -a = ⟨-a.x, -a.y, -a.z⟩ := rfl

theorem Vec3.smul_def (r : ℝ) (a : Vec3) : r • a = ⟨r * a.x, r * a.y, r * a.z⟩ := rfl

theorem Vec3.zero_def : (0 : Vec3) = ⟨0, 0, 0⟩ := rfl

/-- `dot(a, b)` of WGSL. -/
def Vec3.dot (a b : Vec3) : ℝ := a.x * b.x + a.y * b.y + a.z * b.z

/-- `length(a)` of WGSL (Euclidean norm). -/
def Vec3.norm (a : Vec3) : ℝ := Real.sqrt (a.dot a)

/-- One particle record: `struct Particle { position, mass, velocity, _padding }`
(the CPU objects carry the same position/mass/velocity fields; the padding
slot exists only in the 8-float buffer layout and carries no meaning). -/
structure Particle where
  position : Vec3
  mass : ℝ
  velocity : Vec3
  padding : ℝ

instance : Inhabited Particle := ⟨⟨0, 1, 0, 0⟩⟩

/-- `struct SimParams { particleCount, deltaTime, gravityStrength, damping }`. -/
structure SimParams where
  particleCount : ℕ
  deltaTime : ℝ
  gravityStrength : ℝ
  damping : ℝ

/-- `Math.sign` / WGSL `sign`: `-1`, `0` or `1` according to the sign. -/
def sgn (x : ℝ) : ℝ := if x < 0 then -1 else if 0 < x then 1 else 0

/-! ## Force computation

WGSL `computeForces` loop body (force-compute.wgsl, lines 38-50):

    let r = other.position - particle.position;
    let distanceSquared = dot(r, r);
    let epsilon = 0.01;
    let distance = sqrt(distanceSquared + epsilon * epsilon);
    let forceMagnitude = params.gravityStrength * particle.mass * other.mass
                         / distanceSquared;
    let forceDirection = normalize(r);
    totalForce += forceMagnitude * forceDirection;

Note that the softened `distance` is computed but never used: the magnitude
divides by the raw `distanceSquared` and the direction is `normalize(r)`.
When `distanceSquared = 0` the division and `normalize` are not defined
(non-finite / indeterminate in f32), modelled here as `none`. -/
def wgslPairForce (gravityStrength : ℝ) (particle other : Particle) : Option Vec3 :=
  let r := other.position - particle.position
  let distanceSquared := r.dot r
  if distanceSquared = 0 then none
  else
    let forceMagnitude := gravityStrength * particle.mass * other.mass / distanceSquared
    let forceDirection := (1 / r.norm) • r
    some (forceMagnitude • forceDirection)

/-- The full accumulation loop of `computeForces` for the particle at `index`:
sum of `wgslPairForce` over all `i ≠ index`; `none` as soon as any pair term
is indeterminate. -/
def wgslTotalForce (gravityStrength : ℝ) (particles : List Particle) (index : ℕ) :
    Option Vec3 :=
  (List.range particles.length).foldl
    (fun acc i =>
      if i = index then acc
      else do
        let t ← acc
        let f ← wgslPairForce gravityStrength (particles.getD index default)
          (particles.getD i default)
        pure (t + f))
    (some 0)

/-- CPU force loop body (`updatePhysics`, part_001 lines 194-205):

    const dx = other.position[0] - particle.position[0]; (dy, dz alike)
    const distanceSquared = dx*dx + dy*dy + dz*dz + 0.01; // epsilon
    const distance = Math.sqrt(distanceSquared);
    const force = gravityStrength * particle.mass * other.mass / distanceSquared;
    forces[i][k] += force * d_k / distance;

Here the `0.01` is added inside the squared distance before both the
magnitude division and the direction normalization, so the result is a
total function. -/
def cpuPairForce (gravityStrength : ℝ) (particle other : Particle) : Vec3 :=
  let dx := other.position.x - particle.position.x
  let dy := other.position.y - particle.position.y
  let dz := other.position.z - particle.position.z
  let distanceSquared := dx * dx + dy * dy + dz * dz + 0.01
  let distance := Real.sqrt distanceSquared
  let force := gravityStrength * particle.mass * other.mass / distanceSquared
  ⟨force * dx / distance, force * dy / distance, force * dz / distance⟩

/-- The CPU force accumulation for particle `i`: sum over `j ≠ i`. -/
def cpuTotalForce (gravityStrength : ℝ) (particles : List Particle) (i : ℕ) : Vec3 :=
  (List.range particles.length).foldl
    (fun acc j =>
      if j = i then acc
      else acc + cpuPairForce gravityStrength (particles.getD i default)
        (particles.getD j default))
    0

/-! ## Integration

WGSL `integrateParticles` body (force-compute.wgsl, lines 145-176) and the
CPU integration loop body (part_001, lines 210-244) are statement-for-
statement identical, so they share one embedding:

    let acceleration = force / particle.mass;
    particle.velocity += acceleration * params.deltaTime;
    particle.velocity *= params.damping;
    particle.position += particle.velocity * params.deltaTime;
    (then per-axis boundary reflection, then write-back)
-/

/-- `force / particle.mass` (componentwise scalar division). -/
def Vec3.divScalar (a : Vec3) (m : ℝ) : Vec3 := ⟨a.x / m, a.y / m, a.z / m⟩

/-- One axis of the boundary block:

    if (abs(p) > 50.0) { p = sign(p) * 50.0; v *= -0.8; }

(the three axis blocks in the source are this text repeated for x, y, z,
with `boundarySize = 50.0` and `restitution = 0.8`). -/
def boundaryAxis (p v : ℝ) : ℝ × ℝ :=
  if |p| > 50 then (sgn p * 50, v * (-0.8)) else (p, v)

/-- The whole boundary block applied to a particle (axes handled
independently, exactly as the three `if` statements of the source). -/
def boundaryReflect (particle : Particle) : Particle :=
  let bx := boundaryAxis particle.position.x particle.velocity.x
  let by' := boundaryAxis particle.position.y particle.velocity.y
  let bz := boundaryAxis particle.position.z particle.velocity.z
  { particle with
    position := ⟨bx.1, by'.1, bz.1⟩
    velocity := ⟨bx.2, by'.2, bz.2⟩ }

/-- The per-particle integration step (velocity update, damping, position
update, then boundary reflection). -/
def integrateParticle (deltaTime damping : ℝ) (force : Vec3) (particle : Particle) :
    Particle :=
  let acceleration := force.divScalar particle.mass
  let velocity1 := particle.velocity + deltaTime • acceleration
  let velocity2 := damping • velocity1
  let position1 := particle.position + deltaTime • velocity2
  boundaryReflect { particle with position := position1, velocity := velocity2 }

/-! ## Kernel invocations (dispatch-level view)

One invocation of each WGSL kernel, as a function of the full buffers and
the invocation index.  `computeForces` (lines 23-27) and
`integrateParticles` (lines 139-143) both begin with

    let index = global_id.x;
    if (index >= params.particleCount) { return; }

and otherwise write exactly one slot of their output buffer. -/

/-- The value `computeForces` stores into `forcesOut[index]` when every pair
term is defined; at coincident particles the stored f32 value is
indeterminate (see `wgslPairForce`), which the frame-effect claims never
depend on, so the buffer model keeps `Option Vec3` slots. -/
def forceKernelInvocation (gravityStrength : ℝ) (particleCount : ℕ)
    (particles : List Particle) (forces : List (Option Vec3)) (index : ℕ) :
    List Particle × List (Option Vec3) :=
  if index < particleCount then
    (particles, forces.set index (wgslTotalForce gravityStrength particles index))
  else (particles, forces)

/-- One invocation of `integrateParticles`: reads `particles[index]` and
`forces[index]`, writes back `particles[index]` only. -/
def integrateKernelInvocation (params : SimParams) (particles : List Particle)
    (forces : List (Option Vec3)) (index : ℕ) : List Particle :=
  if index < params.particleCount then
    particles.set index
      (integrateParticle params.deltaTime params.damping
        ((forces.getD index none).getD 0) (particles.getD index default))
  else particles

/-! ## CPU `updatePhysics`

part_001 lines 180-246: first a loop filling `forces[i]` from the current
particle state, then a loop integrating every particle in place.  The
integration of particle `i` reads only `forces[i]` and particle `i`, so the
in-place second loop equals a map over indices.  `dt = deltaTime * timeScale`. -/
def updatePhysics (gravityStrength deltaTime timeScale damping : ℝ)
    (particles : List Particle) : List Particle :=
  let dt := deltaTime * timeScale
  (List.range particles.length).map
    (fun i => integrateParticle dt damping
      (cpuTotalForce gravityStrength particles i) (particles.getD i default))

/-! ## Particle initialization

`NBodySimulation.initializeParticles` (main.js, lines 210-247) and
`SimpleNBodySimulation.initializeParticles` (part_001, lines 81-115) draw
four `Math.random()` values per particle, in source order radius, theta,
phi, mass; the randomness is modelled as a stream `rnd : ℕ → ℝ` of values
in `[0, 1)`, particle `i` consuming draws `4*i .. 4*i+3`.  Both loops build
the same body particle; they differ only in the index-0 override. -/
def initParticleBody (gravityStrength r0 r1 r2 r3 : ℝ) : Particle :=
  let radius := r0 * 20 + 5
  let theta := r1 * (2 * Real.pi)
  let phi := Real.arccos (2 * r2 - 1)
  let speed := Real.sqrt (gravityStrength * 100 / radius) * 0.3
  { position := ⟨radius * Real.sin phi * Real.cos theta,
      radius * Real.sin phi * Real.sin theta,
      radius * Real.cos phi⟩
    mass := r3 * 0.5 + 0.5
    velocity := ⟨-speed * Real.sin theta, speed * Real.cos theta, 0⟩
    padding := 0 }

/-- GPU store initializer: after the loop, the index-0 slot is overwritten
with position `(0,0,0)`, mass `1.0`, velocity `(0,0,0)` (main.js 235-244). -/
def initializeParticlesGPU (gravityStrength : ℝ) (count : ℕ) (rnd : ℕ → ℝ) :
    List Particle :=
  let base := (List.range count).map
    (fun i => initParticleBody gravityStrength (rnd (4 * i)) (rnd (4 * i + 1))
      (rnd (4 * i + 2)) (rnd (4 * i + 3)))
  if 0 < count then base.set 0 ⟨⟨0, 0, 0⟩, 1, ⟨0, 0, 0⟩, 0⟩ else base

/-- CPU store initializer: the index-0 override sets position `[0,0,0]`,
velocity `[0,0,0]` and `mass = 2.0` (part_001 lines 110-114). -/
def initializeParticlesCPU (gravityStrength : ℝ) (count : ℕ) (rnd : ℕ → ℝ) :
    List Particle :=
  let base := (List.range count).map
    (fun i => initParticleBody gravityStrength (rnd (4 * i)) (rnd (4 * i + 1))
      (rnd (4 * i + 2)) (rnd (4 * i + 3)))
  if 0 < count then base.set 0 ⟨⟨0, 0, 0⟩, 2, ⟨0, 0, 0⟩, 0⟩ else base

/-! ## Camera controller (part_000)

The orientation is a row-major 3x3 matrix (`rotMatrix`, flat array of 9);
`multiply3x3 a b` is ordinary matrix multiplication, so the embedding uses
`Matrix (Fin 3) (Fin 3) ℝ` with the same row/column layout: flat index `k`
is entry `(k / 3, k % 3)`.  `rotateAroundAxis` composes a Rodrigues matrix
on the left: `rotMatrix := R(axis, angle) * rotMatrix`. -/
def rodrigues (axisX axisY axisZ angle : ℝ) : Matrix (Fin 3) (Fin 3) ℝ :=
  let c := Real.cos angle
  let s := Real.sin angle
  let t := 1 - c
  !![c + axisX * axisX * t, axisX * axisY * t - axisZ * s, axisX * axisZ * t + axisY * s;
     axisY * axisX * t + axisZ * s, c + axisY * axisY * t, axisY * axisZ * t - axisX * s;
     axisZ * axisX * t - axisY * s, axisZ * axisY * t + axisX * s, c + axisZ * axisZ * t]

/-- `rotateAroundAxis`: `this.rotMatrix = multiply3x3(rodrigues, this.rotMatrix)`. -/
def rotateAroundAxis (m : Matrix (Fin 3) (Fin 3) ℝ) (axisX axisY axisZ angle : ℝ) :
    Matrix (Fin 3) (Fin 3) ℝ :=
  rodrigues axisX axisY axisZ angle * m

/-- `rotateAroundCameraUp`: the axis is the second column of `rotMatrix`
(flat indices 1, 4, 7). -/
def rotateAroundCameraUp (m : Matrix (Fin 3) (Fin 3) ℝ) (angle : ℝ) :
    Matrix (Fin 3) (Fin 3) ℝ :=
  rotateAroundAxis m (m 0 1) (m 1 1) (m 2 1) angle

/-- `rotateAroundCameraRight`: the axis is the first column of `rotMatrix`
(flat indices 0, 3, 6). -/
def rotateAroundCameraRight (m : Matrix (Fin 3) (Fin 3) ℝ) (angle : ℝ) :
    Matrix (Fin 3) (Fin 3) ℝ :=
  rotateAroundAxis m (m 0 0) (m 1 0) (m 2 0) angle

/-- One drag rotation event: a yaw (`rotateAroundCameraUp`) or a pitch
(`rotateAroundCameraRight`) by some angle. -/
inductive DragRotation where
  | aroundUp (angle : ℝ)
  | aroundRight (angle : ℝ)

/-- Apply one drag rotation to the orientation matrix. -/
def applyDrag (m : Matrix (Fin 3) (Fin 3) ℝ) : DragRotation → Matrix (Fin 3) (Fin 3) ℝ
  | DragRotation.aroundUp angle => rotateAroundCameraUp m angle
  | DragRotation.aroundRight angle => rotateAroundCameraRight m angle

/-- Apply a finite sequence of drag rotations, oldest first. -/
def applyDrags (events : List DragRotation) (m : Matrix (Fin 3) (Fin 3) ℝ) :
    Matrix (Fin 3) (Fin 3) ℝ :=
  events.foldl applyDrag m

/-- The camera's zoom state: `distance` and `targetDistance`
(part_000 lines 13-14). -/
structure ZoomState where
  distance : ℝ
  targetDistance : ℝ

/-- `onWheel` (part_000 lines 83-90): `zoomSpeed = 0.1`,
`zoomDelta = deltaY > 0 ? 1 + zoomSpeed : 1 - zoomSpeed`,
`targetDistance = max(10, min(500, targetDistance * zoomDelta))`;
`distance` is not touched. -/
def onWheel (deltaY : ℝ) (s : ZoomState) : ZoomState :=
  let zoomDelta := if 0 < deltaY then 1 + 0.1 else 1 - 0.1
  { s with targetDistance := max 10 (min 500 (s.targetDistance * zoomDelta)) }

/-- `update` (part_000 lines 131-135), zoom part:
`distance += (targetDistance - distance) * smoothing` with `smoothing = 0.1`
(the rest of `update` only recomputes the derived camera position). -/
def zoomUpdate (s : ZoomState) : ZoomState :=
  { s with distance := s.distance + (s.targetDistance - s.distance) * 0.1 }

/-! ## Resize entry points -/

/-- `SimpleNBodySimulation.setParticleCount` (part_001 line 335):
`this.particleCount = Math.floor(Math.min(count, 4000))` — the requested
count is silently capped at 4000 and the function returns nothing. -/
def setParticleCountCPU (count : ℕ) : ℕ := min count 4000

/-- `NBodySimulation.setParticleCount` (main.js line 328):
`this.particleCount = Math.floor(count)` — no cap, no error report. -/
def setParticleCountGPU (count : ℕ) : ℕ := count

/-! ## Claim C1 -/

/-- Claim C1 is contradicted by the force kernel: the softened distance
`sqrt(d2 + eps^2)` is computed but unused, the magnitude divides by the raw
squared distance, and the direction normalizes the raw offset.  At two
coincident particles the contribution is indeterminate (`none`), not
finite; and at unit separation the computed magnitude is `1`, which is not
the claimed `G*m1*m2 / (d2 + eps^2) = 1 / (1 + 0.0001)`. -/
theorem c1_force_kernel_unsoftened :
    wgslPairForce 1 ⟨⟨0, 0, 0⟩, 1, ⟨0, 0, 0⟩, 0⟩ ⟨⟨0, 0, 0⟩, 1, ⟨0, 0, 0⟩, 0⟩ = none ∧
    wgslPairForce 1 ⟨⟨0, 0, 0⟩, 1, ⟨0, 0, 0⟩, 0⟩ ⟨⟨1, 0, 0⟩, 1, ⟨0, 0, 0⟩, 0⟩ =
      some ⟨1, 0, 0⟩ ∧
    (1 : ℝ) ≠ 1 * 1 * 1 / (1 ^ 2 + 0.01 ^ 2) := by
  refine ⟨?_, ?_, by norm_num⟩
  · simp [wgslPairForce, Vec3.dot, Vec3.sub_def]
  · simp only [wgslPairForce, Vec3.dot, Vec3.sub_def, Vec3.norm, Vec3.smul_def]
    norm_num [Real.sqrt_one]

/-! ## Claim C3 -/

/-- Claim C3: boundary handling checks each axis independently after the
position update; whenever `|position.axis| > 50` the position is clamped to
`sign * 50` and that axis's velocity is multiplied by `-0.8`; in particular
a particle whose x-position reaches `51` with x-velocity `v` ends with
`position.x = 50` and `velocity.x = -0.8 * v`, independent of the other two
axes. -/
theorem c3_boundary_reflection :
    (∀ p : Particle,
      (boundaryReflect p).position.x =
        (if |p.position.x| > 50 then sgn p.position.x * 50 else p.position.x) ∧
      (boundaryReflect p).velocity.x =
        (if |p.position.x| > 50 then -0.8 * p.velocity.x else p.velocity.x) ∧
      (boundaryReflect p).position.y =
        (if |p.position.y| > 50 then sgn p.position.y * 50 else p.position.y) ∧
      (boundaryReflect p).velocity.y =
        (if |p.position.y| > 50 then -0.8 * p.velocity.y else p.velocity.y) ∧
      (boundaryReflect p).position.z =
        (if |p.position.z| > 50 then sgn p.position.z * 50 else p.position.z) ∧
      (boundaryReflect p).velocity.z =
        (if |p.position.z| > 50 then -0.8 * p.velocity.z else p.velocity.z)) ∧
    (∀ y z m vx vy vz w,
      (boundaryReflect ⟨⟨51, y, z⟩, m, ⟨vx, vy, vz⟩, w⟩).position.x = 50 ∧
      (boundaryReflect ⟨⟨51, y, z⟩, m, ⟨vx, vy, vz⟩, w⟩).velocity.x = -0.8 * vx) := by
  constructor
  · intro p
    refine ⟨?_, ?_, ?_, ?_, ?_, ?_⟩ <;>
      · simp only [boundaryReflect, boundaryAxis]
        split <;> simp <;> ring
  · intro y z m vx vy vz w
    have h51 : |(51 : ℝ)| > 50 := by norm_num
    constructor
    · simp only [boundaryReflect, boundaryAxis]
      simp [h51, sgn]
      norm_num
    · simp only [boundaryReflect, boundaryAxis]
      rw [if_pos h51]
      ring

/-! ## Claim C8 -/

/-- Claim C8: a wheel event multiplies `targetDistance` by `1 + 0.1` or
`1 - 0.1`, clamps to `[10, 500]` and never changes `distance`; repeated
`update()` calls keep `targetDistance` fixed, move `distance` by the fixed
fraction `0.1` (closed form `T + 0.9^n * (d0 - T)`), make the gap to the
target non-increasing, and keep `distance` between its initial value and
the target. -/
theorem c8_zoom_smoothing :
    (∀ (s : ZoomState) (deltaY : ℝ),
      (onWheel deltaY s).distance = s.distance ∧
      (onWheel deltaY s).targetDistance =
        max 10 (min 500 (s.targetDistance * (if 0 < deltaY then 1 + 0.1 else 1 - 0.1))) ∧
      10 ≤ (onWheel deltaY s).targetDistance ∧
      (onWheel deltaY s).targetDistance ≤ 500) ∧
    (∀ (s : ZoomState) (n : ℕ),
      (zoomUpdate^[n] s).targetDistance = s.targetDistance ∧
      (zoomUpdate^[n] s).distance =
        s.targetDistance + 0.9 ^ n * (s.distance - s.targetDistance) ∧
      |s.targetDistance - (zoomUpdate^[n + 1] s).distance| ≤
        |s.targetDistance - (zoomUpdate^[n] s).distance| ∧
      min s.distance s.targetDistance ≤ (zoomUpdate^[n] s).distance ∧
      (zoomUpdate^[n] s).distance ≤ max s.distance s.targetDistance) := by
  have closed : ∀ (s : ZoomState) (n : ℕ),
      zoomUpdate^[n] s =
        ⟨s.targetDistance + 0.9 ^ n * (s.distance - s.targetDistance),
          s.targetDistance⟩ := by
    intro s n
    induction n with
    | zero => cases s; simp
    | succ n ih =>
      rw [Function.iterate_succ_apply', ih]
      simp only [zoomUpdate]
      refine congrArg₂ ZoomState.mk ?_ rfl
      ring
  constructor
  · intro s deltaY
    refine ⟨rfl, rfl, le_max_left _ _, ?_⟩
    exact max_le (by norm_num) (le_trans (min_le_left _ _) (by norm_num))
  · intro s n
    have h0 : (0 : ℝ) ≤ 0.9 ^ n := by positivity
    have h1 : (0.9 : ℝ) ^ n ≤ 1 := pow_le_one₀ (by norm_num) (by norm_num)
    rw [closed s n, closed s (n + 1)]
    refine ⟨rfl, rfl, ?_, ?_, ?_⟩
    · have : ∀ k : ℕ, |s.targetDistance -
          (s.targetDistance + 0.9 ^ k * (s.distance - s.targetDistance))| =
          0.9 ^ k * |s.distance - s.targetDistance| := by
        intro k
        rw [show s.targetDistance -
            (s.targetDistance + 0.9 ^ k * (s.distance - s.targetDistance)) =
            -(0.9 ^ k * (s.distance - s.targetDistance)) by ring]
        rw [abs_neg, abs_mul, abs_of_nonneg (by positivity : (0:ℝ) ≤ 0.9 ^ k)]
      rw [this n, this (n + 1)]
      have hpow : (0.9 : ℝ) ^ (n + 1) ≤ 0.9 ^ n :=
        pow_le_pow_of_le_one (by norm_num) (by norm_num) (Nat.le_succ n)
      exact mul_le_mul_of_nonneg_right hpow (abs_nonneg _)
    · rcases le_total s.distance s.targetDistance with h | h
      · rw [min_eq_left h]; nlinarith
      · rw [min_eq_right h]; nlinarith
    · rcases le_total s.distance s.targetDistance with h | h
      · rw [max_eq_right h]; nlinarith
      · rw [max_eq_left h]; nlinarith

/-! ## Claim C7 -/

/-- Orthonormality with determinant one (a proper rotation), stated on the
raw matrix. -/
def isProperRotation (m : Matrix (Fin 3) (Fin 3) ℝ) : Prop :=
  m.transpose * m = 1 ∧ m.det = 1

/-- The Rodrigues matrix built from a unit axis is orthogonal. -/
theorem rodrigues_orthogonal (axisX axisY axisZ angle : ℝ)
    (hu : axisX ^ 2 + axisY ^ 2 + axisZ ^ 2 = 1) :
    (rodrigues axisX axisY axisZ angle).transpose *
      rodrigues axisX axisY axisZ angle = 1 := by
  have hc := Real.sin_sq_add_cos_sq angle
  ext i j
  fin_cases i <;> fin_cases j <;>
    simp only [rodrigues, Matrix.mul_apply, Matrix.transpose_apply,
      Fin.sum_univ_three, Matrix.one_apply, Matrix.cons_val', Matrix.cons_val_zero,
      Matrix.cons_val_one, Matrix.head_cons, Matrix.head_fin_const,
      Matrix.empty_val', Matrix.cons_val_fin_one, Fin.zero_eta, Fin.mk_one]
  · norm_num [Fin.ext_iff]
    linear_combination (1 - axisX ^ 2) * hc +
      (axisX ^ 2 * (1 - Real.cos angle) ^ 2 + Real.sin angle ^ 2) * hu
  · norm_num [Fin.ext_iff]
    linear_combination (-(axisX * axisY)) * hc +
      axisX * axisY * (1 - Real.cos angle) ^ 2 * hu
  · norm_num [Fin.ext_iff]
    linear_combination (-(axisX * axisZ)) * hc +
      axisX * axisZ * (1 - Real.cos angle) ^ 2 * hu
  · norm_num [Fin.ext_iff]
    linear_combination (-(axisX * axisY)) * hc +
      axisX * axisY * (1 - Real.cos angle) ^ 2 * hu
  · norm_num [Fin.ext_iff]
    linear_combination (1 - axisY ^ 2) * hc +
      (axisY ^ 2 * (1 - Real.cos angle) ^ 2 + Real.sin angle ^ 2) * hu
  · norm_num [Fin.ext_iff]
    linear_combination (-(axisY * axisZ)) * hc +
      axisY * axisZ * (1 - Real.cos angle) ^ 2 * hu
  · norm_num [Fin.ext_iff]
    linear_combination (-(axisX * axisZ)) * hc +
      axisX * axisZ * (1 - Real.cos angle) ^ 2 * hu
  · norm_num [Fin.ext_iff]
    linear_combination (-(axisY * axisZ)) * hc +
      axisY * axisZ * (1 - Real.cos angle) ^ 2 * hu
  · norm_num [Fin.ext_iff]
    linear_combination (1 - axisZ ^ 2) * hc +
      (axisZ ^ 2 * (1 - Real.cos angle) ^ 2 + Real.sin angle ^ 2) * hu

/-- The Rodrigues matrix built from a unit axis has determinant one. -/
theorem rodrigues_det (axisX axisY axisZ angle : ℝ)
    (hu : axisX ^ 2 + axisY ^ 2 + axisZ ^ 2 = 1) :
    (rodrigues axisX axisY axisZ angle).det = 1 := by
  have hc := Real.sin_sq_add_cos_sq angle
  rw [Matrix.det_fin_three]
  simp [rodrigues]
  linear_combination ((axisX ^ 2 + axisY ^ 2 + axisZ ^ 2) * Real.sin angle ^ 2 *
      (1 - Real.cos angle) + Real.cos angle ^ 2 * (1 - Real.cos angle) +
      Real.sin angle ^ 2) * hu + hc

/-- A column of an orthogonal matrix is a unit vector. -/
theorem column_unit (m : Matrix (Fin 3) (Fin 3) ℝ) (h : m.transpose * m = 1)
    (j : Fin 3) : (m 0 j) ^ 2 + (m 1 j) ^ 2 + (m 2 j) ^ 2 = 1 := by
  have hj := congrFun (congrFun h j) j
  simp only [Matrix.mul_apply, Matrix.transpose_apply, Fin.sum_univ_three,
    Matrix.one_apply, if_pos rfl, if_true, eq_self_iff_true] at hj
  linear_combination hj

/-- One drag rotation preserves proper-rotation-ness: the rotation axis is a
column of the current orthonormal matrix, hence a unit vector, so the
composed Rodrigues matrix is a proper rotation. -/
theorem applyDrag_proper (m : Matrix (Fin 3) (Fin 3) ℝ) (e : DragRotation)
    (h : isProperRotation m) : isProperRotation (applyDrag m e) := by
  obtain ⟨h1, hdet⟩ := h
  have key : ∀ ax ay az angle, ax ^ 2 + ay ^ 2 + az ^ 2 = 1 →
      isProperRotation (rotateAroundAxis m ax ay az angle) := by
    intro ax ay az angle hu
    constructor
    · rw [rotateAroundAxis, Matrix.transpose_mul, Matrix.mul_assoc,
        ← Matrix.mul_assoc (rodrigues ax ay az angle).transpose,
        rodrigues_orthogonal ax ay az angle hu, Matrix.one_mul, h1]
    · rw [rotateAroundAxis, Matrix.det_mul, rodrigues_det ax ay az angle hu,
        hdet, one_mul]
  cases e with
  | aroundUp angle =>
    exact key _ _ _ angle (column_unit m h1 1)
  | aroundRight angle =>
    exact key _ _ _ angle (column_unit m h1 0)

/-- Claim C7: starting from the identity orientation, after any finite
sequence of drag rotations (each composing a Rodrigues matrix around a
current-axis column onto the orientation), the orientation matrix is still
orthonormal with determinant `+1`, in exact real arithmetic. -/
theorem c7_orientation_proper_rotation (events : List DragRotation) :
    (applyDrags events 1).transpose * applyDrags events 1 = 1 ∧
    (applyDrags events 1).det = 1 := by
  have main : ∀ (evs : List DragRotation) (m : Matrix (Fin 3) (Fin 3) ℝ),
      isProperRotation m → isProperRotation (applyDrags evs m) := by
    intro evs
    induction evs with
    | nil => intro m hm; exact hm
    | cons e rest ih =>
      intro m hm
      exact ih _ (applyDrag_proper m e hm)
  have hid : isProperRotation (1 : Matrix (Fin 3) (Fin 3) ℝ) := by
    constructor
    · rw [Matrix.transpose_one, Matrix.one_mul]
    · exact Matrix.det_one
  exact main events 1 hid

/-! ## Claim C10 -/

/-- Claim C10 counterexample: requesting 5000 particles silently yields a
count of 4000 from the CPU resize path — the operation truncates instead of
reporting anything (its JS return value is `undefined`; the embedding's
codomain is just the new count, there is no error channel in the code). -/
theorem c10_counterexample :
    setParticleCountCPU 5000 = 4000 ∧ (4000 : ℕ) ≠ 5000 := by
  constructor
  · rfl
  · decide

/-- Claim C10 amended: a request above the 4000 maximum is silently capped
to 4000 by the CPU implementation (so the stored count differs from the
request, with no error reported), while the GPU implementation stores the
request unchanged (no cap and likewise no error). -/
theorem c10_silent_truncation (count : ℕ) (h : 4000 < count) :
    setParticleCountCPU count = 4000 ∧ setParticleCountCPU count ≠ count ∧
    setParticleCountGPU count = count := by
  refine ⟨?_, ?_, rfl⟩
  · simp only [setParticleCountCPU]
    omega
  · simp only [setParticleCountCPU]
    omega

/-- Witness for `c10_silent_truncation` at the concrete request 5000. -/
theorem c10_silent_truncation_witness :
    setParticleCountCPU 5000 = 4000 ∧ setParticleCountCPU 5000 ≠ 5000 ∧
    setParticleCountGPU 5000 = 5000 :=
  c10_silent_truncation 5000 (by decide)

/-! ## Claim C4 -/

/-- The properties claimed for every non-anchor particle produced by the
initializer: distance from the origin in `[5, 25)`, mass in `[0.5, 1)`,
velocity of magnitude `sqrt(gravityStrength * 100 / radius) * 0.3`
perpendicular to the position with zero z-component. -/
def bodyParticleSpec (gravityStrength : ℝ) (p : Particle) : Prop :=
  ∃ radius : ℝ, 5 ≤ radius ∧ radius < 25 ∧ p.position.norm = radius ∧
    0.5 ≤ p.mass ∧ p.mass < 1 ∧
    p.velocity.norm = Real.sqrt (gravityStrength * 100 / radius) * 0.3 ∧
    p.position.dot p.velocity = 0 ∧ p.velocity.z = 0

/-- Any particle built by the shared initializer loop body from draws in
`[0, 1)` satisfies `bodyParticleSpec`. -/
theorem initParticleBody_spec (gravityStrength u0 u1 u2 u3 : ℝ)
    (h0 : 0 ≤ u0) (h0' : u0 < 1) (h3 : 0 ≤ u3) (h3' : u3 < 1) :
    bodyParticleSpec gravityStrength
      (initParticleBody gravityStrength u0 u1 u2 u3) := by
  have hθ := Real.sin_sq_add_cos_sq (u1 * (2 * Real.pi))
  have hφ := Real.sin_sq_add_cos_sq (Real.arccos (2 * u2 - 1))
  have hrpos : (0 : ℝ) < u0 * 20 + 5 := by linarith
  have hs : 0 ≤ Real.sqrt (gravityStrength * 100 / (u0 * 20 + 5)) * 0.3 :=
    mul_nonneg (Real.sqrt_nonneg _) (by norm_num)
  refine ⟨u0 * 20 + 5, by linarith, by linarith, ?_, ?_, ?_, ?_, ?_, ?_⟩
  · have hd : (initParticleBody gravityStrength u0 u1 u2 u3).position.dot
        (initParticleBody gravityStrength u0 u1 u2 u3).position =
        (u0 * 20 + 5) ^ 2 := by
      simp only [initParticleBody, Vec3.dot]
      linear_combination
        ((u0 * 20 + 5) ^ 2 * Real.sin (Real.arccos (2 * u2 - 1)) ^ 2) * hθ +
        (u0 * 20 + 5) ^ 2 * hφ
    rw [Vec3.norm, hd, Real.sqrt_sq hrpos.le]
  · simp only [initParticleBody]; linarith
  · simp only [initParticleBody]; linarith
  · have hd : (initParticleBody gravityStrength u0 u1 u2 u3).velocity.dot
        (initParticleBody gravityStrength u0 u1 u2 u3).velocity =
        (Real.sqrt (gravityStrength * 100 / (u0 * 20 + 5)) * 0.3) ^ 2 := by
      simp only [initParticleBody, Vec3.dot]
      linear_combination
        ((Real.sqrt (gravityStrength * 100 / (u0 * 20 + 5)) * 0.3) ^ 2) * hθ
    rw [Vec3.norm, hd, Real.sqrt_sq hs]
  · simp only [initParticleBody, Vec3.dot]
    ring
  · simp only [initParticleBody]

/-- Claim C4 counterexample: in the CPU store the anchor particle 0 is
initialized with mass `2.0`, not unit mass. -/
theorem c4_counterexample :
    (initializeParticlesCPU 1 1 (fun _ => 0)).getD 0 default =
      ⟨⟨0, 0, 0⟩, 2, ⟨0, 0, 0⟩, 0⟩ ∧ (2 : ℝ) ≠ 1 := by
  constructor
  · simp [initializeParticlesCPU]
  · norm_num

/-- Claim C4 amended: after `initialize(count)` both stores contain exactly
`count` particles; every particle with index `1 <= i < count` has distance
from the origin in `[5, 25)`, mass in `[0.5, 1)`, and a velocity of
magnitude `sqrt(gravityStrength * 100 / radius) * 0.3` perpendicular to its
position with zero z-component; particle 0 sits at the origin with zero
velocity, with mass `1.0` in the WebGPU store but `2.0` in the CPU store. -/
theorem c4_initialization (gravityStrength : ℝ) (count : ℕ) (rnd : ℕ → ℝ)
    (hrnd : ∀ k, 0 ≤ rnd k ∧ rnd k < 1) :
    (initializeParticlesGPU gravityStrength count rnd).length = count ∧
    (initializeParticlesCPU gravityStrength count rnd).length = count ∧
    (∀ i, 1 ≤ i → i < count →
      bodyParticleSpec gravityStrength
        ((initializeParticlesGPU gravityStrength count rnd).getD i default) ∧
      bodyParticleSpec gravityStrength
        ((initializeParticlesCPU gravityStrength count rnd).getD i default)) ∧
    (0 < count →
      (initializeParticlesGPU gravityStrength count rnd).getD 0 default =
        ⟨⟨0, 0, 0⟩, 1, ⟨0, 0, 0⟩, 0⟩ ∧
      (initializeParticlesCPU gravityStrength count rnd).getD 0 default =
        ⟨⟨0, 0, 0⟩, 2, ⟨0, 0, 0⟩, 0⟩) := by
  have hbody : ∀ i, i < count →
      ((List.range count).map
        (fun i => initParticleBody gravityStrength (rnd (4 * i)) (rnd (4 * i + 1))
          (rnd (4 * i + 2)) (rnd (4 * i + 3)))).getD i default =
        initParticleBody gravityStrength (rnd (4 * i)) (rnd (4 * i + 1))
          (rnd (4 * i + 2)) (rnd (4 * i + 3)) := by
    intro i hi
    simp [List.getD_eq_getElem?_getD, List.getElem?_map, List.getElem?_range hi]
  have hlen : ∀ v : Particle,
      ((if 0 < count then
        ((List.range count).map
          (fun i => initParticleBody gravityStrength (rnd (4 * i)) (rnd (4 * i + 1))
            (rnd (4 * i + 2)) (rnd (4 * i + 3)))).set 0 v
        else
        (List.range count).map
          (fun i => initParticleBody gravityStrength (rnd (4 * i)) (rnd (4 * i + 1))
            (rnd (4 * i + 2)) (rnd (4 * i + 3)))) : List Particle).length = count := by
    intro v
    split <;> simp
  have hget : ∀ (v : Particle) (i : ℕ), 1 ≤ i → i < count →
      ((if 0 < count then
        ((List.range count).map
          (fun i => initParticleBody gravityStrength (rnd (4 * i)) (rnd (4 * i + 1))
            (rnd (4 * i + 2)) (rnd (4 * i + 3)))).set 0 v
        else
        (List.range count).map
          (fun i => initParticleBody gravityStrength (rnd (4 * i)) (rnd (4 * i + 1))
            (rnd (4 * i + 2)) (rnd (4 * i + 3)))) : List Particle).getD i default =
        initParticleBody gravityStrength (rnd (4 * i)) (rnd (4 * i + 1))
          (rnd (4 * i + 2)) (rnd (4 * i + 3)) := by
    intro v i h1 hi
    rw [if_pos (Nat.lt_of_lt_of_le Nat.zero_lt_one (le_trans h1 hi.le)),
      List.getD_eq_getElem?_getD,
      List.getElem?_set_ne (by omega : (0 : ℕ) ≠ i),
      ← List.getD_eq_getElem?_getD, hbody i hi]
  have hget0 : ∀ v : Particle, 0 < count →
      ((if 0 < count then
        ((List.range count).map
          (fun i => initParticleBody gravityStrength (rnd (4 * i)) (rnd (4 * i + 1))
            (rnd (4 * i + 2)) (rnd (4 * i + 3)))).set 0 v
        else
        (List.range count).map
          (fun i => initParticleBody gravityStrength (rnd (4 * i)) (rnd (4 * i + 1))
            (rnd (4 * i + 2)) (rnd (4 * i + 3)))) : List Particle).getD 0 default = v := by
    intro v hc
    rw [if_pos hc, List.getD_eq_getElem?_getD, List.getElem?_set_self',
      List.getElem?_eq_getElem (by simpa using hc)]
    rfl
  refine ⟨hlen _, hlen _, ?_, ?_⟩
  · intro i h1 hi
    constructor
    · rw [show initializeParticlesGPU gravityStrength count rnd =
        (if 0 < count then _ else _) from rfl, hget _ i h1 hi]
      exact initParticleBody_spec gravityStrength _ _ _ _
        (hrnd _).1 (hrnd _).2 (hrnd _).1 (hrnd _).2
    · rw [show initializeParticlesCPU gravityStrength count rnd =
        (if 0 < count then _ else _) from rfl, hget _ i h1 hi]
      exact initParticleBody_spec gravityStrength _ _ _ _
        (hrnd _).1 (hrnd _).2 (hrnd _).1 (hrnd _).2
  · intro hc
    exact ⟨hget0 _ hc, hget0 _ hc⟩

/-- Witness for `c4_initialization` at gravity 1, two particles, and the
constant random stream `1/2`. -/
theorem c4_initialization_witness :
    (initializeParticlesGPU 1 2 (fun _ => 1 / 2)).length = 2 ∧
    (initializeParticlesCPU 1 2 (fun _ => 1 / 2)).length = 2 ∧
    (∀ i, 1 ≤ i → i < 2 →
      bodyParticleSpec 1
        ((initializeParticlesGPU 1 2 (fun _ => 1 / 2)).getD i default) ∧
      bodyParticleSpec 1
        ((initializeParticlesCPU 1 2 (fun _ => 1 / 2)).getD i default)) ∧
    (0 < 2 →
      (initializeParticlesGPU 1 2 (fun _ => 1 / 2)).getD 0 default =
        ⟨⟨0, 0, 0⟩, 1, ⟨0, 0, 0⟩, 0⟩ ∧
      (initializeParticlesCPU 1 2 (fun _ => 1 / 2)).getD 0 default =
        ⟨⟨0, 0, 0⟩, 2, ⟨0, 0, 0⟩, 0⟩) :=
  c4_initialization 1 2 (fun _ => 1 / 2) (fun _ => ⟨by norm_num, by norm_num⟩)

/-! ## Claim C5 -/

/-- Norm of a componentwise-scaled vector with a nonnegative scale. -/
theorem norm_scaled (t dx dy dz : ℝ) (ht : 0 ≤ t) :
    (⟨t * dx, t * dy, t * dz⟩ : Vec3).norm =
      t * Real.sqrt (dx * dx + dy * dy + dz * dz) := by
  rw [Vec3.norm, Vec3.dot]
  have h : t * dx * (t * dx) + t * dy * (t * dy) + t * dz * (t * dz) =
      t ^ 2 * (dx * dx + dy * dy + dz * dz) := by ring
  rw [h, Real.sqrt_mul (sq_nonneg t), Real.sqrt_sq ht]

/-- The inverse-square force scaled through a strictly larger (softened)
denominator is strictly smaller in magnitude. -/
theorem softened_denominator_lt (A q : ℝ) (hA : 0 < A) (hq : 0 < q) :
    A / (q + 0.01) / Real.sqrt (q + 0.01) * Real.sqrt q < A / q := by
  have hq01 : (0 : ℝ) < q + 0.01 := by linarith
  have hsq : 0 < Real.sqrt q := Real.sqrt_pos.mpr hq
  have hsq01 : 0 < Real.sqrt (q + 0.01) := Real.sqrt_pos.mpr hq01
  have hlt : Real.sqrt q < Real.sqrt (q + 0.01) :=
    Real.sqrt_lt_sqrt hq.le (by linarith)
  have hden : q * Real.sqrt q < (q + 0.01) * Real.sqrt (q + 0.01) := by nlinarith
  have hL : A / (q + 0.01) / Real.sqrt (q + 0.01) * Real.sqrt q
      = A * Real.sqrt q / ((q + 0.01) * Real.sqrt (q + 0.01)) := by
    field_simp
  have hR : A / q = A * Real.sqrt q / (q * Real.sqrt q) :=
    (mul_div_mul_right _ _ hsq.ne').symm
  rw [hL, hR]
  exact div_lt_div_of_pos_left (by positivity) (by positivity) hden

/-- Core comparison: at any two distinct positions with positive masses and
positive gravity, the WGSL pair force is defined and the CPU pair force is
strictly smaller in magnitude (the CPU denominator is softened by `0.01`,
the WGSL one is not). -/
theorem softenedPair_lt_rawPair (G : ℝ) (a b : Particle)
    (hpos : a.position ≠ b.position) (hma : 0 < a.mass) (hmb : 0 < b.mass)
    (hG : 0 < G) :
    ∃ w, wgslPairForce G a b = some w ∧ (cpuPairForce G a b).norm < w.norm := by
  obtain ⟨dx, hdx⟩ : ∃ t, b.position.x - a.position.x = t := ⟨_, rfl⟩
  obtain ⟨dy, hdy⟩ : ∃ t, b.position.y - a.position.y = t := ⟨_, rfl⟩
  obtain ⟨dz, hdz⟩ : ∃ t, b.position.z - a.position.z = t := ⟨_, rfl⟩
  have hq : 0 < dx * dx + dy * dy + dz * dz := by
    rcases lt_trichotomy (dx * dx + dy * dy + dz * dz) 0 with h | h | h
    · nlinarith [sq_nonneg dx, sq_nonneg dy, sq_nonneg dz]
    · exfalso
      apply hpos
      have h1 : dx = 0 := by nlinarith [sq_nonneg dx, sq_nonneg dy, sq_nonneg dz]
      have h2 : dy = 0 := by nlinarith [sq_nonneg dx, sq_nonneg dy, sq_nonneg dz]
      have h3 : dz = 0 := by nlinarith [sq_nonneg dx, sq_nonneg dy, sq_nonneg dz]
      rw [h1] at hdx; rw [h2] at hdy; rw [h3] at hdz
      exact Vec3.ext_fields (by linarith) (by linarith) (by linarith)
    · exact h
  have hdot : (b.position - a.position).dot (b.position - a.position) =
      dx * dx + dy * dy + dz * dz := by
    simp only [Vec3.dot, Vec3.sub_def, hdx, hdy, hdz]
  have hnormr : (b.position - a.position).norm =
      Real.sqrt (dx * dx + dy * dy + dz * dz) := by
    rw [Vec3.norm, hdot]
  have hsq : 0 < Real.sqrt (dx * dx + dy * dy + dz * dz) := Real.sqrt_pos.mpr hq
  have hA : 0 < G * a.mass * b.mass := by positivity
  have hq01 : (0 : ℝ) < dx * dx + dy * dy + dz * dz + 0.01 := by linarith
  refine ⟨(G * a.mass * b.mass / (dx * dx + dy * dy + dz * dz)) •
    ((1 / (b.position - a.position).norm) • (b.position - a.position)), ?_, ?_⟩
  · simp only [wgslPairForce]
    rw [hdot, if_neg hq.ne']
  · have hcpu : cpuPairForce G a b =
        ⟨G * a.mass * b.mass / (dx * dx + dy * dy + dz * dz + 0.01) /
            Real.sqrt (dx * dx + dy * dy + dz * dz + 0.01) * dx,
          G * a.mass * b.mass / (dx * dx + dy * dy + dz * dz + 0.01) /
            Real.sqrt (dx * dx + dy * dy + dz * dz + 0.01) * dy,
          G * a.mass * b.mass / (dx * dx + dy * dy + dz * dz + 0.01) /
            Real.sqrt (dx * dx + dy * dy + dz * dz + 0.01) * dz⟩ := by
      simp only [cpuPairForce, hdx, hdy, hdz]
      exact Vec3.ext_fields (by ring) (by ring) (by ring)
    have hwv : (G * a.mass * b.mass / (dx * dx + dy * dy + dz * dz)) •
        ((1 / (b.position - a.position).norm) • (b.position - a.position)) =
        ⟨G * a.mass * b.mass / (dx * dx + dy * dy + dz * dz) *
            (1 / Real.sqrt (dx * dx + dy * dy + dz * dz)) * dx,
          G * a.mass * b.mass / (dx * dx + dy * dy + dz * dz) *
            (1 / Real.sqrt (dx * dx + dy * dy + dz * dz)) * dy,
          G * a.mass * b.mass / (dx * dx + dy * dy + dz * dz) *
            (1 / Real.sqrt (dx * dx + dy * dy + dz * dz)) * dz⟩ := by
      rw [hnormr]
      simp only [Vec3.smul_def, Vec3.sub_def, hdx, hdy, hdz]
      exact Vec3.ext_fields (by ring) (by ring) (by ring)
    have htc : 0 ≤ G * a.mass * b.mass / (dx * dx + dy * dy + dz * dz + 0.01) /
        Real.sqrt (dx * dx + dy * dy + dz * dz + 0.01) :=
      div_nonneg (div_nonneg hA.le hq01.le) (Real.sqrt_nonneg _)
    have htw : 0 ≤ G * a.mass * b.mass / (dx * dx + dy * dy + dz * dz) *
        (1 / Real.sqrt (dx * dx + dy * dy + dz * dz)) :=
      mul_nonneg (div_nonneg hA.le hq.le) (one_div_nonneg.mpr (Real.sqrt_nonneg _))
    rw [hcpu, hwv, norm_scaled _ _ _ _ htc, norm_scaled _ _ _ _ htw]
    have hread : G * a.mass * b.mass / (dx * dx + dy * dy + dz * dz) *
        (1 / Real.sqrt (dx * dx + dy * dy + dz * dz)) *
        Real.sqrt (dx * dx + dy * dy + dz * dz) =
        G * a.mass * b.mass / (dx * dx + dy * dy + dz * dz) := by
      field_simp
      ring
    rw [hread]
    exact softened_denominator_lt _ _ hA hq

/-- Adding the zero vector on the left is the identity. -/
theorem Vec3.zero_add_vec (v : Vec3) : (0 : Vec3) + v = v :=
  Vec3.ext_fields (zero_add _) (zero_add _) (zero_add _)

/-- Claim C5 counterexample: on the two-particle store with unit masses at
`(0,0,0)` and `(1,0,0)` and gravity 1, the CPU total force on particle 0
differs from the WGSL total force on particle 0 (the CPU magnitude is
strictly smaller because only the CPU law softens the denominator). -/
theorem c5_counterexample :
    wgslTotalForce 1 [⟨⟨0, 0, 0⟩, 1, ⟨0, 0, 0⟩, 0⟩, ⟨⟨1, 0, 0⟩, 1, ⟨0, 0, 0⟩, 0⟩] 0 ≠
      some (cpuTotalForce 1
        [⟨⟨0, 0, 0⟩, 1, ⟨0, 0, 0⟩, 0⟩, ⟨⟨1, 0, 0⟩, 1, ⟨0, 0, 0⟩, 0⟩] 0) := by
  have hTwgsl : wgslTotalForce 1
      [⟨⟨0, 0, 0⟩, 1, ⟨0, 0, 0⟩, 0⟩, ⟨⟨1, 0, 0⟩, 1, ⟨0, 0, 0⟩, 0⟩] 0 =
      (wgslPairForce 1 ⟨⟨0, 0, 0⟩, 1, ⟨0, 0, 0⟩, 0⟩ ⟨⟨1, 0, 0⟩, 1, ⟨0, 0, 0⟩, 0⟩).bind
        (fun f => some ((0 : Vec3) + f)) := rfl
  have hTcpu : cpuTotalForce 1
      [⟨⟨0, 0, 0⟩, 1, ⟨0, 0, 0⟩, 0⟩, ⟨⟨1, 0, 0⟩, 1, ⟨0, 0, 0⟩, 0⟩] 0 =
      (0 : Vec3) + cpuPairForce 1 ⟨⟨0, 0, 0⟩, 1, ⟨0, 0, 0⟩, 0⟩
        ⟨⟨1, 0, 0⟩, 1, ⟨0, 0, 0⟩, 0⟩ := rfl
  obtain ⟨w, hw, hlt⟩ := softenedPair_lt_rawPair 1 ⟨⟨0, 0, 0⟩, 1, ⟨0, 0, 0⟩, 0⟩
    ⟨⟨1, 0, 0⟩, 1, ⟨0, 0, 0⟩, 0⟩
    (by intro h; exact absurd (congrArg Vec3.x h) (by norm_num))
    (by norm_num) (by norm_num) (by norm_num)
  intro hEq
  rw [hTwgsl, hTcpu, hw] at hEq
  simp only [Option.bind_some, Option.some.injEq, Vec3.zero_add_vec] at hEq
  rw [← hEq] at hlt
  exact absurd hlt (lt_irrefl _)

/-- Claim C5 amended: the two implementations do not realize the same force
law — the CPU loop softens the squared distance by `0.01` inside both the
magnitude division and the direction normalization, while the WGSL kernel
divides by the raw squared distance, so for any two particles at distinct
positions with positive masses and positive gravity the CPU pairwise force
has strictly smaller magnitude than the (defined) WGSL pairwise force. -/
theorem c5_softening_mismatch (G : ℝ) (a b : Particle)
    (hpos : a.position ≠ b.position) (hma : 0 < a.mass) (hmb : 0 < b.mass)
    (hG : 0 < G) :
    ∃ w, wgslPairForce G a b = some w ∧ (cpuPairForce G a b).norm < w.norm :=
  softenedPair_lt_rawPair G a b hpos hma hmb hG

/-- Witness for `c5_softening_mismatch` at the concrete unit-separation
two-particle configuration. -/
theorem c5_softening_mismatch_witness :
    ∃ w, wgslPairForce 1 ⟨⟨0, 0, 0⟩, 1, ⟨0, 0, 0⟩, 0⟩ ⟨⟨1, 0, 0⟩, 1, ⟨0, 0, 0⟩, 0⟩ =
      some w ∧
    (cpuPairForce 1 ⟨⟨0, 0, 0⟩, 1, ⟨0, 0, 0⟩, 0⟩ ⟨⟨1, 0, 0⟩, 1, ⟨0, 0, 0⟩, 0⟩).norm <
      w.norm :=
  c5_softening_mismatch 1 ⟨⟨0, 0, 0⟩, 1, ⟨0, 0, 0⟩, 0⟩ ⟨⟨1, 0, 0⟩, 1, ⟨0, 0, 0⟩, 0⟩
    (by intro h; exact absurd (congrArg Vec3.x h) (by norm_num))
    (by norm_num) (by norm_num) (by norm_num)

/-! ## Claim C2 -/

/-- Claim C2: for an invocation with `index < particleCount` the integration
kernel replaces particle `index` by the result of, in order, acceleration
`F/m`, velocity update `v + a*dt`, damping `v * damping`, and position
update with the already-damped velocity — with the boundary handling
(`boundaryReflect`) applied only after all of that. -/
theorem c2_semi_implicit_euler (params : SimParams) (particles : List Particle)
    (forces : List (Option Vec3)) (index : ℕ) (p : Particle) (f : Vec3)
    (h : index < params.particleCount)
    (hp : particles.getD index default = p)
    (hf : (forces.getD index none).getD 0 = f) :
    integrateKernelInvocation params particles forces index =
      particles.set index
        (boundaryReflect
          { p with
            velocity := params.damping •
              (p.velocity + params.deltaTime • f.divScalar p.mass)
            position := p.position + params.deltaTime •
              (params.damping •
                (p.velocity + params.deltaTime • f.divScalar p.mass)) }) := by
  subst hp hf
  simp only [integrateKernelInvocation, if_pos h, integrateParticle]

/-- Witness for `c2_semi_implicit_euler` at a concrete one-particle store. -/
theorem c2_semi_implicit_euler_witness :
    integrateKernelInvocation ⟨1, 1, 1, 1⟩ [⟨⟨1, 2, 3⟩, 1, ⟨4, 5, 6⟩, 0⟩] [] 0 =
      [⟨⟨1, 2, 3⟩, 1, ⟨4, 5, 6⟩, 0⟩].set 0
        (boundaryReflect
          { (⟨⟨1, 2, 3⟩, 1, ⟨4, 5, 6⟩, 0⟩ : Particle) with
            velocity := (1 : ℝ) •
              ((⟨4, 5, 6⟩ : Vec3) + (1 : ℝ) • Vec3.divScalar 0 1)
            position := (⟨1, 2, 3⟩ : Vec3) + (1 : ℝ) •
              ((1 : ℝ) • ((⟨4, 5, 6⟩ : Vec3) + (1 : ℝ) • Vec3.divScalar 0 1)) }) :=
  c2_semi_implicit_euler ⟨1, 1, 1, 1⟩ [⟨⟨1, 2, 3⟩, 1, ⟨4, 5, 6⟩, 0⟩] [] 0
    ⟨⟨1, 2, 3⟩, 1, ⟨4, 5, 6⟩, 0⟩ 0 (by norm_num) rfl rfl

/-! ## Claim C6 -/

/-- A two-body configuration mirrored about the origin: particle `b` has the
negated position and velocity of particle `a` and the same mass. -/
def mirrored (a b : Particle) : Prop :=
  b.position = -a.position ∧ b.velocity = -a.velocity ∧ b.mass = a.mass

/-- The CPU pair force is odd under exchanging mirrored endpoints. -/
theorem cpuPairForce_neg (G : ℝ) (a b : Particle) (h : b.position = -a.position) :
    cpuPairForce G b a = -(cpuPairForce G a b) := by
  have hx : b.position.x = -a.position.x := by rw [h]; rfl
  have hy : b.position.y = -a.position.y := by rw [h]; rfl
  have hz : b.position.z = -a.position.z := by rw [h]; rfl
  simp only [cpuPairForce, Vec3.neg_def, hx, hy, hz]
  have hd : (a.position.x - -a.position.x) * (a.position.x - -a.position.x) +
      (a.position.y - -a.position.y) * (a.position.y - -a.position.y) +
      (a.position.z - -a.position.z) * (a.position.z - -a.position.z) + 0.01 =
      (-a.position.x - a.position.x) * (-a.position.x - a.position.x) +
      (-a.position.y - a.position.y) * (-a.position.y - a.position.y) +
      (-a.position.z - a.position.z) * (-a.position.z - a.position.z) + 0.01 := by
    ring
  rw [hd]
  exact Vec3.ext_fields (by ring) (by ring) (by ring)

/-- `Math.sign` is odd. -/
theorem sgn_neg_eq (x : ℝ) : sgn (-x) = -sgn x := by
  simp only [sgn]
  split_ifs <;> linarith

/-- One axis of boundary reflection commutes with negating both the
position and the velocity component. -/
theorem boundaryAxis_neg (p v : ℝ) :
    boundaryAxis (-p) (-v) = (-(boundaryAxis p v).1, -(boundaryAxis p v).2) := by
  simp only [boundaryAxis, abs_neg]
  split
  · simp only [sgn_neg_eq, Prod.mk.injEq]
    constructor <;> ring
  · rfl

/-- Boundary reflection preserves the mirror relation. -/
theorem boundaryReflect_mirror (A B : Particle) (h : mirrored A B) :
    mirrored (boundaryReflect A) (boundaryReflect B) := by
  obtain ⟨hp, hv, hm⟩ := h
  have hpx : B.position.x = -A.position.x := by rw [hp]; rfl
  have hpy : B.position.y = -A.position.y := by rw [hp]; rfl
  have hpz : B.position.z = -A.position.z := by rw [hp]; rfl
  have hvx : B.velocity.x = -A.velocity.x := by rw [hv]; rfl
  have hvy : B.velocity.y = -A.velocity.y := by rw [hv]; rfl
  have hvz : B.velocity.z = -A.velocity.z := by rw [hv]; rfl
  refine ⟨?_, ?_, hm⟩
  · simp only [boundaryReflect, Vec3.neg_def, hpx, hpy, hpz, hvx, hvy, hvz]
    exact Vec3.ext_fields (by simp [boundaryAxis_neg]) (by simp [boundaryAxis_neg])
      (by simp [boundaryAxis_neg])
  · simp only [boundaryReflect, Vec3.neg_def, hpx, hpy, hpz, hvx, hvy, hvz]
    exact Vec3.ext_fields (by simp [boundaryAxis_neg]) (by simp [boundaryAxis_neg])
      (by simp [boundaryAxis_neg])

/-- The whole integration step maps a mirrored pair with opposite forces to
a mirrored pair. -/
theorem integrateParticle_mirror (deltaTime damping : ℝ) (F : Vec3)
    (a b : Particle) (h : mirrored a b) :
    mirrored (integrateParticle deltaTime damping F a)
      (integrateParticle deltaTime damping (-F) b) := by
  obtain ⟨hp, hv, hm⟩ := h
  have hpx : b.position.x = -a.position.x := by rw [hp]; rfl
  have hpy : b.position.y = -a.position.y := by rw [hp]; rfl
  have hpz : b.position.z = -a.position.z := by rw [hp]; rfl
  have hvx : b.velocity.x = -a.velocity.x := by rw [hv]; rfl
  have hvy : b.velocity.y = -a.velocity.y := by rw [hv]; rfl
  have hvz : b.velocity.z = -a.velocity.z := by rw [hv]; rfl
  simp only [integrateParticle]
  apply boundaryReflect_mirror
  refine ⟨?_, ?_, hm⟩
  · simp only [Vec3.smul_def, Vec3.add_def, Vec3.divScalar, Vec3.neg_def,
      hpx, hpy, hpz, hvx, hvy, hvz, hm]
    exact Vec3.ext_fields (by ring) (by ring) (by ring)
  · simp only [Vec3.smul_def, Vec3.add_def, Vec3.divScalar, Vec3.neg_def,
      hvx, hvy, hvz, hm]
    exact Vec3.ext_fields (by ring) (by ring) (by ring)

/-- Claim C6: for a two-particle system with equal masses and positions and
velocities mirrored about the origin, any number of `updatePhysics` steps
(each a force computation followed by integration with damping and boundary
handling) yields a configuration that is still mirrored. -/
theorem c6_two_body_symmetry (G deltaTime timeScale damping : ℝ) (k : ℕ)
    (a b : Particle) (h : mirrored a b) :
    ∃ a' b', (updatePhysics G deltaTime timeScale damping)^[k] [a, b] = [a', b'] ∧
      mirrored a' b' := by
  induction k generalizing a b with
  | zero => exact ⟨a, b, rfl, h⟩
  | succ k ih =>
    have hF : (0 : Vec3) + cpuPairForce G b a =
        -((0 : Vec3) + cpuPairForce G a b) := by
      rw [Vec3.zero_add_vec, Vec3.zero_add_vec, cpuPairForce_neg G a b h.1]
    have hstep : updatePhysics G deltaTime timeScale damping [a, b] =
        [integrateParticle (deltaTime * timeScale) damping
          ((0 : Vec3) + cpuPairForce G a b) a,
         integrateParticle (deltaTime * timeScale) damping
          ((0 : Vec3) + cpuPairForce G b a) b] := rfl
    have hmir1 : mirrored
        (integrateParticle (deltaTime * timeScale) damping
          ((0 : Vec3) + cpuPairForce G a b) a)
        (integrateParticle (deltaTime * timeScale) damping
          ((0 : Vec3) + cpuPairForce G b a) b) := by
      rw [hF]
      exact integrateParticle_mirror _ _ _ a b h
    obtain ⟨a', b', hiter, hmir⟩ := ih _ _ hmir1
    refine ⟨a', b', ?_, hmir⟩
    rw [Function.iterate_succ_apply, hstep, hiter]

/-- Witness for `c6_two_body_symmetry` on a concrete mirrored pair, with
the repository's default parameters and one step. -/
theorem c6_two_body_symmetry_witness :
    ∃ a' b', (updatePhysics 1 0.016 1 0.999)^[1]
      [⟨⟨1, 2, 3⟩, 1, ⟨4, 5, 6⟩, 0⟩, ⟨⟨-1, -2, -3⟩, 1, ⟨-4, -5, -6⟩, 0⟩] =
      [a', b'] ∧ mirrored a' b' :=
  c6_two_body_symmetry 1 0.016 1 0.999 1 ⟨⟨1, 2, 3⟩, 1, ⟨4, 5, 6⟩, 0⟩
    ⟨⟨-1, -2, -3⟩, 1, ⟨-4, -5, -6⟩, 0⟩
    ⟨Vec3.ext_fields (by norm_num [Vec3.neg_def]) (by norm_num [Vec3.neg_def])
      (by norm_num [Vec3.neg_def]),
     Vec3.ext_fields (by norm_num [Vec3.neg_def]) (by norm_num [Vec3.neg_def])
      (by norm_num [Vec3.neg_def]), rfl⟩

/-! ## Claim C9 -/

/-- The integration step never changes the mass slot. -/
theorem integrateParticle_mass (deltaTime damping : ℝ) (f : Vec3) (p : Particle) :
    (integrateParticle deltaTime damping f p).mass = p.mass := rfl

/-- The integration step never changes the padding slot. -/
theorem integrateParticle_padding (deltaTime damping : ℝ) (f : Vec3) (p : Particle) :
    (integrateParticle deltaTime damping f p).padding = p.padding := rfl

/-- Claim C9: an integration invocation with `index >= particleCount` is a
complete no-op; with `index < particleCount` it writes only slot `index`,
preserving the store's length, every other particle, and the mass and
padding of particle `index`.  A force invocation with `index >= count` is a
no-op and in no case mutates particle state. -/
theorem c9_kernel_frame_effects (gravityStrength : ℝ) (params : SimParams) (n : ℕ)
    (particles : List Particle) (forces : List (Option Vec3)) (index : ℕ) :
    (params.particleCount ≤ index →
      integrateKernelInvocation params particles forces index = particles) ∧
    (n ≤ index →
      forceKernelInvocation gravityStrength n particles forces index =
        (particles, forces)) ∧
    (forceKernelInvocation gravityStrength n particles forces index).1 = particles ∧
    (index < params.particleCount →
      (integrateKernelInvocation params particles forces index).length =
        particles.length ∧
      (∀ j, j ≠ index →
        (integrateKernelInvocation params particles forces index).getD j default =
          particles.getD j default) ∧
      ((integrateKernelInvocation params particles forces index).getD index
        default).mass = (particles.getD index default).mass ∧
      ((integrateKernelInvocation params particles forces index).getD index
        default).padding = (particles.getD index default).padding) := by
  refine ⟨?_, ?_, ?_, ?_⟩
  · intro h
    simp only [integrateKernelInvocation, if_neg (Nat.not_lt.mpr h)]
  · intro h
    simp only [forceKernelInvocation, if_neg (Nat.not_lt.mpr h)]
  · simp only [forceKernelInvocation]
    split <;> rfl
  · intro h
    simp only [integrateKernelInvocation, if_pos h]
    refine ⟨List.length_set .., ?_, ?_, ?_⟩
    · intro j hj
      rw [List.getD_eq_getElem?_getD, List.getElem?_set_ne (Ne.symm hj),
        ← List.getD_eq_getElem?_getD]
    · by_cases hl : index < particles.length
      · rw [List.getD_eq_getElem?_getD, List.getElem?_set_self',
          List.getElem?_eq_getElem hl]
        simp [integrateParticle_mass, List.getD_eq_getElem?_getD,
          List.getElem?_eq_getElem hl]
      · rw [List.set_eq_of_length_le (Nat.not_lt.mp hl)]
    · by_cases hl : index < particles.length
      · rw [List.getD_eq_getElem?_getD, List.getElem?_set_self',
          List.getElem?_eq_getElem hl]
        simp [integrateParticle_padding, List.getD_eq_getElem?_getD,
          List.getElem?_eq_getElem hl]
      · rw [List.set_eq_of_length_le (Nat.not_lt.mp hl)]

/-- Witness for `c9_kernel_frame_effects` at concrete buffers and indices. -/
theorem c9_kernel_frame_effects_witness :
    integrateKernelInvocation ⟨1, 1, 1, 1⟩ [⟨⟨1, 2, 3⟩, 1, ⟨4, 5, 6⟩, 0⟩] [] 3 =
      [⟨⟨1, 2, 3⟩, 1, ⟨4, 5, 6⟩, 0⟩] ∧
    forceKernelInvocation 1 1 [⟨⟨1, 2, 3⟩, 1, ⟨4, 5, 6⟩, 0⟩] [] 5 =
      ([⟨⟨1, 2, 3⟩, 1, ⟨4, 5, 6⟩, 0⟩], []) ∧
    (forceKernelInvocation 1 1 [⟨⟨1, 2, 3⟩, 1, ⟨4, 5, 6⟩, 0⟩] [] 0).1 =
      [⟨⟨1, 2, 3⟩, 1, ⟨4, 5, 6⟩, 0⟩] ∧
    ((integrateKernelInvocation ⟨1, 1, 1, 1⟩ [⟨⟨1, 2, 3⟩, 1, ⟨4, 5, 6⟩, 0⟩] [] 0).getD
      0 default).mass =
      (([⟨⟨1, 2, 3⟩, 1, ⟨4, 5, 6⟩, 0⟩] : List Particle).getD 0 default).mass :=
  ⟨(c9_kernel_frame_effects 1 ⟨1, 1, 1, 1⟩ 1 [⟨⟨1, 2, 3⟩, 1, ⟨4, 5, 6⟩, 0⟩] [] 3).1
      (by norm_num),
   (c9_kernel_frame_effects 1 ⟨1, 1, 1, 1⟩ 1 [⟨⟨1, 2, 3⟩, 1, ⟨4, 5, 6⟩, 0⟩] [] 5).2.1
      (by norm_num),
   (c9_kernel_frame_effects 1 ⟨1, 1, 1, 1⟩ 1 [⟨⟨1, 2, 3⟩, 1, ⟨4, 5, 6⟩, 0⟩] [] 0).2.2.1,
   ((c9_kernel_frame_effects 1 ⟨1, 1, 1, 1⟩ 1 [⟨⟨1, 2, 3⟩, 1, ⟨4, 5, 6⟩, 0⟩] []
      0).2.2.2 (by norm_num)).2.2.1⟩

end

end NBody
